import Mathlib

/-!
# Verification of `scripts/update-projects.js`

A shallow embedding of the GitHub Project Daily Snapshot script.  The script
fetches the repositories of a user, filters them, decides per repository whether a
GitHub Pages site is published (three detection tiers), formats the surviving
records, sorts them and writes a JSON artifact.

Modelling conventions:
* Network traffic is an oracle (`Network`): a map from request URL to the
  low-level outcome of a GET (`WireResult`) or of a HEAD probe
  (`ProbeOutcome`).  The code under verification only inspects these
  outcomes, so the embedding is parametric in them.
* External JavaScript runtime semantics that the script calls into
  (`JSON.parse` at the two GET sites, `new Date(...).valueOf` used by the
  sort comparator) are parameters collected in `JsEnv`.
* JS nullable strings become `Option String`; the empty string is a distinct
  value (JS treats it as falsy, which the code exploits via `||`).
* `process.exit(1)` after the top-level catch, and the file write, are
  represented by the `RunResult` type: `fatal` carries no written content,
  `success` carries the exact string handed to `fs.writeFileSync`.
-/

namespace Snapshot

/-- JS `String.prototype.includes`: substring containment.
Used at `update-projects.js:136` (`repo.name.includes(...)`). -/
def jsIncludes (s sub : String) : Bool := decide (sub.data <:+: s.data)

/-- Test of an anchored-suffix regular expression `/pat$/.test(s)` where `pat`
contains no metacharacters apart from escaped dots: the regex accepts exactly
the strings that end with the literal `pat`.  All seven patterns of
`likelyHasPages` (`update-projects.js:117-125`) have this shape. -/
def jsEndsWith (s pat : String) : Bool := List.isSuffixOf pat.data s.data

/-- RepositoryRecord: the fields of a GitHub API repository object that
`update-projects.js` reads.  Nullable / possibly-absent fields are `Option`. -/
structure Repo where
  name : String
  description : Option String
  html_url : String
  language : Option String
  stargazers_count : Nat
  forks_count : Nat
  updated_at : String
  created_at : String
  fork : Bool
  archived : Bool
  topics : Option (List String)
  homepage : Option String
deriving DecidableEq

/-- Configuration (`update-projects.js:23-30`).  `token = ""` models an absent
credential (the JS code tests the truthiness of the token, and the default is
the empty string).  The output path is handed to the external write sink and does not
influence the computed artifact, so it is not modelled. -/
structure Config where
  username : String
  token : String
  filterForks : Bool
  filterArchived : Bool
  minStars : Nat
deriving DecidableEq

/-- The default configuration values from `update-projects.js:23-30`. -/
def defaultConfig : Config :=
  { username := "Chriszhang6"
    token := ""
    filterForks := true
    filterArchived := true
    minStars := 0 }

/-- Low-level outcome of one GET request: either a reply with a status code
and a body, or a network error (the error event). -/
inductive WireResult where
  | reply (status : Nat) (body : String)
  | netError
deriving DecidableEq

/-- The error kinds with which `httpsGet` (`update-projects.js:38-64`)
rejects: non-2xx status (carrying status and raw body), malformed JSON on a
2xx reply, or a transport error. -/
inductive HttpError where
  | httpStatus (status : Nat) (body : String)
  | parseError (body : String)
  | network
deriving DecidableEq

/-- Low-level outcome of one HEAD probe: a reply status code, a network
error, or expiry of the bounded timeout. -/
inductive ProbeOutcome where
  | status (code : Nat)
  | netError
  | timeout
deriving DecidableEq

/-- The network oracle: outcomes of GET requests (`wire`) and HEAD probes
(`probe`), keyed by request URL. -/
structure Network where
  wire : String → WireResult
  probe : String → ProbeOutcome

/-- External JavaScript runtime semantics used by the script:
`parseRepos` is `JSON.parse` (plus the dynamic field reads) applied to the
list-endpoint body — `none` models a body on which `JSON.parse` throws;
`parsePages` likewise for the Pages-config endpoint body, whose parsed value
is discarded; `dateValue` is the numeric value of `new Date(s)`. -/
structure JsEnv where
  parseRepos : String → Option (List Repo)
  parsePages : String → Option Unit
  dateValue : String → Int

/-- Embedding of `httpsGet` (`update-projects.js:38-64`): resolves with the parsed JSON
body exactly when the status is in [200,300) and the body parses; otherwise
rejects with the corresponding `HttpError`. -/
def httpsGet {α : Type} (parse : String → Option α) (w : WireResult) : Except HttpError α :=
  match w with
  | WireResult.reply status body =>
      if 200 ≤ status ∧ status < 300 then
        match parse body with
        | some v => Except.ok v
        | none => Except.error (HttpError.parseError body)
      else Except.error (HttpError.httpStatus status body)
  | WireResult.netError => Except.error HttpError.network

/-- URL of the repository-list endpoint (`update-projects.js:33`). -/
def reposApiUrl (cfg : Config) : String :=
  "https://api.github.com/users/" ++ cfg.username ++ "/repos?per_page=100&type=owner&sort=updated"

/-- URL of the per-repository Pages-configuration endpoint
(`update-projects.js:75`). -/
def pagesApiUrl (cfg : Config) (repoName : String) : String :=
  "https://api.github.com/repos/" ++ cfg.username ++ "/" ++ repoName ++ "/pages"

/-- Candidate Pages URL probed by the direct tier (`update-projects.js:90`). -/
def pagesUrl (cfg : Config) (repoName : String) : String :=
  "https://" ++ cfg.username ++ ".github.io/" ++ repoName ++ "/"

/-- Timeout of the HEAD probe in milliseconds (`update-projects.js:94`). -/
def probeTimeoutMs : Nat := 5000

/-- Embedding of `hasGitHubPagesAPI` (`update-projects.js:69-83`): returns `false` without
a request when no token is configured; otherwise `true` exactly when
`httpsGet` on the Pages-config endpoint resolves, and `false` on every
rejection (the `catch` swallows all errors). -/
def hasGitHubPagesAPI (cfg : Config) (env : JsEnv) (net : Network) (repoName : String) : Bool :=
  if cfg.token = "" then false
  else
    match httpsGet env.parsePages (net.wire (pagesApiUrl cfg repoName)) with
    | Except.ok _ => true
    | Except.error _ => false

/-- Embedding of `testPagesURL` (`update-projects.js:88-110`): HEAD-probes the candidate
Pages URL; resolves `true` exactly for a reply status in [200,400), and
`false` on any other status, on a network error, or on timeout.  The promise
only ever resolves (never rejects), which the total return type `Bool`
reflects. -/
def testPagesURL (cfg : Config) (net : Network) (repoName : String) : Bool :=
  match net.probe (pagesUrl cfg repoName) with
  | ProbeOutcome.status code => decide (200 ≤ code) && decide (code < 400)
  | ProbeOutcome.netError => false
  | ProbeOutcome.timeout => false

/-- The seven naming patterns of `update-projects.js:117-125`, each an
anchored-suffix regex, in source order. -/
def pagesPatterns : List String :=
  [".github.io", "-homepage", "-portfolio", "-website", "-site", "-demo", "-docs"]

/-- Embedding of `likelyHasPages` (`update-projects.js:116-128`): `pagesPatterns.some`. -/
def likelyHasPages (repo : Repo) : Bool :=
  pagesPatterns.any (fun pat => jsEndsWith repo.name pat)

/-- ProjectRecord: the output schema built by `formatProjectData`. -/
structure Project where
  name : String
  description : String
  url : String
  github : String
  language : String
  stars : Nat
  forks : Nat
  updatedAt : String
  createdAt : String
  topics : List String
  homepage : Option String
deriving DecidableEq

/-- JS `x || d` for a nullable string `x` and non-empty default `d`:
`null`/absent and `""` are falsy and give `d`. -/
def jsOrDefault (x : Option String) (d : String) : String :=
  match x with
  | some s => if s = "" then d else s
  | none => d

/-- JS `x || null` for a nullable string: `""` collapses to `null`. -/
def jsOrNull (x : Option String) : Option String :=
  match x with
  | some s => if s = "" then none else some s
  | none => none

/-- Embedding of `formatProjectData` (`update-projects.js:133-155`). -/
def formatProjectData (cfg : Config) (repo : Repo) : Project :=
  let urlVal :=
    if jsIncludes repo.name (cfg.username ++ ".github.io") then
      "https://" ++ cfg.username ++ ".github.io/"
    else
      "https://" ++ cfg.username ++ ".github.io/" ++ repo.name ++ "/"
  { name := repo.name
    description := jsOrDefault repo.description "A GitHub project"
    url := urlVal
    github := repo.html_url
    language := jsOrDefault repo.language "Various"
    stars := repo.stargazers_count
    forks := repo.forks_count
    updatedAt := repo.updated_at
    createdAt := repo.created_at
    topics := repo.topics.getD []
    homepage := jsOrNull repo.homepage }

/-- The three `continue` guards of the main loop (`update-projects.js:181-192`):
a repository passes exactly when no guard fires. -/
def passesFilter (cfg : Config) (repo : Repo) : Bool :=
  if cfg.filterForks && repo.fork then false
  else if cfg.filterArchived && repo.archived then false
  else if repo.stargazers_count < cfg.minStars then false
  else true

/-- Result of the per-repository Pages resolution (`update-projects.js:196-227`):
the `hasPages` flag, the last value of `detectionMethod`, and the number of
network calls issued while resolving this repository. -/
structure Resolution where
  hasPages : Bool
  detectionMethod : String
  calls : Nat
deriving DecidableEq

/-- The three-tier resolution of `update-projects.js:196-227`, with explicit
network-call accounting: tier 1 (API) runs only when a token is configured
and issues one GET; tier 2 (direct probe) runs only when tier 1 did not
detect Pages and issues one HEAD; tier 3 (naming pattern) issues no call.
`hasGitHubPagesAPI` and `testPagesURL` never reject, so the `catch` branches
of the source are unreachable and are not represented. -/
def resolvePages (cfg : Config) (env : JsEnv) (net : Network) (repo : Repo) : Resolution :=
  let r1 : Resolution :=
    if cfg.token = "" then
      { hasPages := false, detectionMethod := "", calls := 0 }
    else
      let b := hasGitHubPagesAPI cfg env net repo.name
      { hasPages := b
        detectionMethod := if b then "API" else "API (not found)"
        calls := 1 }
  let r2 : Resolution :=
    if r1.hasPages then r1
    else
      let b := testPagesURL cfg net repo.name
      { hasPages := b
        detectionMethod := if b then "URL test" else "URL test (not found)"
        calls := r1.calls + 1 }
  if r2.hasPages then r2
  else if likelyHasPages repo then
    { hasPages := true, detectionMethod := "Pattern match", calls := r2.calls }
  else r2

/-- One iteration of the main loop for one repository
(`update-projects.js:179-236`): the produced ProjectRecord, if any, together
with the number of network calls spent on this repository.  The filter
guards run before any detection tier. -/
def processRepo (cfg : Config) (env : JsEnv) (net : Network) (repo : Repo) :
    Option Project × Nat :=
  if passesFilter cfg repo then
    let r := resolvePages cfg env net repo
    (if r.hasPages then some (formatProjectData cfg repo) else none, r.calls)
  else (none, 0)

/-- The `projects` array after the main loop (`update-projects.js:177-236`). -/
def collectProjects (cfg : Config) (env : JsEnv) (net : Network) (repos : List Repo) :
    List Project :=
  repos.filterMap (fun repo => (processRepo cfg env net repo).1)

/-- The sort comparator of `update-projects.js:239-244` as a boolean
"a sorts no later than b" relation: the comparator value
(`b.stars - a.stars`, else `dv(b.updatedAt) - dv(a.updatedAt)`) is ≤ 0. -/
def projLE (dv : String → Int) (a b : Project) : Bool :=
  if a.stars = b.stars then decide (dv b.updatedAt ≤ dv a.updatedAt)
  else decide (b.stars < a.stars)

/-- Embedding of `projects.sort(...)` (`update-projects.js:239-244`), as a
merge sort with the comparator relation `projLE`. -/
def sortProjects (dv : String → Int) (ps : List Project) : List Project :=
  ps.mergeSort (projLE dv)

/-- Lowercase hexadecimal digit, as used by `JSON.stringify` for `\u00XX`
escapes of control characters. -/
def hexDigit (n : Nat) : Char :=
  if n < 10 then Char.ofNat (48 + n) else Char.ofNat (87 + n)

/-- The escape of one character inside a JSON string literal, per
`JSON.stringify`. -/
def jsonEscapeChar (c : Char) : String :=
  if c = Char.ofNat 34 then "\\\""
  else if c = Char.ofNat 92 then "\\\\"
  else if c = Char.ofNat 8 then "\\b"
  else if c = Char.ofNat 12 then "\\f"
  else if c = Char.ofNat 10 then "\\n"
  else if c = Char.ofNat 13 then "\\r"
  else if c = Char.ofNat 9 then "\\t"
  else if c.toNat < 32 then
    "\\u00" ++ String.singleton (hexDigit (c.toNat / 16)) ++
      String.singleton (hexDigit (c.toNat % 16))
  else String.singleton c

/-- A JSON string literal, per `JSON.stringify`. -/
def jsonString (s : String) : String :=
  "\"" ++ String.join (s.data.map jsonEscapeChar) ++ "\""

/-- Rendering by `JSON.stringify(topics, null, 2)` of the topics array when it
occurs as an object member at depth 2: an empty array prints inline as `[]`;
a non-empty one puts each element on its own line at six spaces, closing at
four. -/
def stringifyTopics (topics : List String) : String :=
  match topics with
  | [] => "[]"
  | _ =>
    "[\n" ++ String.intercalate ",\n" (topics.map (fun t => "      " ++ jsonString t)) ++
      "\n    ]"

/-- Rendering by `JSON.stringify(p, null, 2)` of one ProjectRecord as an element
of the top-level array (object at indent 2, members at indent 4), with the
member order fixed by `formatProjectData`. -/
def stringifyProject (p : Project) : String :=
  "  \x7b\n" ++
    String.intercalate ",\n"
      [ "    \"name\": " ++ jsonString p.name
      , "    \"description\": " ++ jsonString p.description
      , "    \"url\": " ++ jsonString p.url
      , "    \"github\": " ++ jsonString p.github
      , "    \"language\": " ++ jsonString p.language
      , "    \"stars\": " ++ toString p.stars
      , "    \"forks\": " ++ toString p.forks
      , "    \"updatedAt\": " ++ jsonString p.updatedAt
      , "    \"createdAt\": " ++ jsonString p.createdAt
      , "    \"topics\": " ++ stringifyTopics p.topics
      , "    \"homepage\": " ++
          (match p.homepage with
           | some h => jsonString h
           | none => "null") ] ++
    "\n  \x7d"

/-- Embedding of `JSON.stringify(projects, null, 2)` (`update-projects.js:255`): the exact
file content written by the run.  The empty array prints as `[]`. -/
def stringifyProjects (ps : List Project) : String :=
  match ps with
  | [] => "[]"
  | _ => "[\n" ++ String.intercalate ",\n" (ps.map stringifyProject) ++ "\n]"

/-- Outcome of one run of `main` (`update-projects.js:160-279`): a fatal
error caught by the top-level handler (`process.exit(1)` reached before any
write), or a completed run carrying the written file content and the sorted
project list. -/
inductive RunResult where
  | fatal (err : HttpError)
  | success (written : String) (projects : List Project)
deriving DecidableEq

/-- The process exit status: 1 on the fatal path, 0 on completion. -/
def RunResult.exitCode : RunResult → Nat
  | RunResult.fatal _ => 1
  | RunResult.success _ _ => 0

/-- The content written to the output file, if any: nothing is written on the
fatal path. -/
def RunResult.written : RunResult → Option String
  | RunResult.fatal _ => none
  | RunResult.success content _ => some content

/-- Embedding of `main` (`update-projects.js:160-279`): fetch the repository list; on any
rejection of that fetch, the top-level catch fires before anything is
written; otherwise filter/resolve/format each repository, sort, and write
the serialized artifact. -/
def mainRun (cfg : Config) (env : JsEnv) (net : Network) : RunResult :=
  match httpsGet env.parseRepos (net.wire (reposApiUrl cfg)) with
  | Except.error e => RunResult.fatal e
  | Except.ok repos =>
      let projects := sortProjects env.dateValue (collectProjects cfg env net repos)
      RunResult.success (stringifyProjects projects) projects

/-! ## Concrete instances used by witnesses and counterexamples -/

/-- A network on which every GET fails with a transport error and every HEAD
probe times out. -/
def deadNetwork : Network :=
  { wire := fun _ => WireResult.netError
    probe := fun _ => ProbeOutcome.timeout }

/-- A network whose every HEAD probe yields the given outcome (GETs fail). -/
def probeNetwork (po : ProbeOutcome) : Network :=
  { wire := fun _ => WireResult.netError
    probe := fun _ => po }

/-- A network on which every GET yields status 200 with body `"[]"` and
every probe times out. -/
def emptyListNetwork : Network :=
  { wire := fun _ => WireResult.reply 200 "[]"
    probe := fun _ => ProbeOutcome.timeout }

/-- A runtime environment in which every JSON body fails to parse and every
date has value 0. -/
def failingEnv : JsEnv :=
  { parseRepos := fun _ => none
    parsePages := fun _ => none
    dateValue := fun _ => 0 }

/-- A runtime environment in which every list body parses to the empty
repository list. -/
def emptyListEnv : JsEnv :=
  { parseRepos := fun _ => some []
    parsePages := fun _ => none
    dateValue := fun _ => 0 }

/-- The default configuration with a (non-empty) token configured. -/
def tokenConfig : Config := { defaultConfig with token := "tok" }

/-- A repository whose name ends in `.github.io` but is not the configured account
`{account}.github.io` repository. -/
def repoFoo : Repo :=
  { name := "foo.github.io"
    description := none
    html_url := "https://github.com/Chriszhang6/foo.github.io"
    language := none
    stargazers_count := 0
    forks_count := 0
    updated_at := "2024-01-02T00:00:00Z"
    created_at := "2024-01-01T00:00:00Z"
    fork := false
    archived := false
    topics := none
    homepage := none }

/-- A repository whose homepage field holds the empty string. -/
def repoEmptyHomepage : Repo :=
  { name := "bar"
    description := some "desc"
    html_url := "https://github.com/Chriszhang6/bar"
    language := some "JavaScript"
    stargazers_count := 1
    forks_count := 0
    updated_at := "2024-01-02T00:00:00Z"
    created_at := "2024-01-01T00:00:00Z"
    fork := false
    archived := false
    topics := some ["web"]
    homepage := some "" }

/-- A plain repository matched by the `-docs` naming pattern. -/
def repoDocs : Repo :=
  { name := "foo-docs"
    description := some "docs site"
    html_url := "https://github.com/Chriszhang6/foo-docs"
    language := some "HTML"
    stargazers_count := 3
    forks_count := 0
    updated_at := "2024-01-02T00:00:00Z"
    created_at := "2024-01-01T00:00:00Z"
    fork := false
    archived := false
    topics := none
    homepage := none }

/-- A forked repository. -/
def repoFork : Repo :=
  { name := "somefork"
    description := none
    html_url := "https://github.com/Chriszhang6/somefork"
    language := none
    stargazers_count := 10
    forks_count := 2
    updated_at := "2024-01-02T00:00:00Z"
    created_at := "2024-01-01T00:00:00Z"
    fork := true
    archived := false
    topics := none
    homepage := none }

/-! ## Helper lemmas -/

/-- A positive API tier implies a configured credential. -/
lemma hasGitHubPagesAPI_token_ne (cfg : Config) (env : JsEnv) (net : Network)
    (repoName : String) (h : hasGitHubPagesAPI cfg env net repoName = true) :
    cfg.token ≠ "" := by
  intro htok
  simp [hasGitHubPagesAPI, htok] at h

/-- Closed form of the three-tier resolution: the detected flag is the
disjunction of the tiers, the diagnostic names the first successful tier,
and the call count charges one GET when a token is configured plus one HEAD
unless the API tier already detected Pages. -/
lemma resolvePages_eq (cfg : Config) (env : JsEnv) (net : Network) (repo : Repo) :
    resolvePages cfg env net repo =
      { hasPages := hasGitHubPagesAPI cfg env net repo.name || testPagesURL cfg net repo.name ||
          likelyHasPages repo
        detectionMethod :=
          if hasGitHubPagesAPI cfg env net repo.name then "API"
          else if testPagesURL cfg net repo.name then "URL test"
          else if likelyHasPages repo then "Pattern match"
          else "URL test (not found)"
        calls :=
          (if cfg.token = "" then 0 else 1) +
            (if hasGitHubPagesAPI cfg env net repo.name then 0 else 1) } := by
  by_cases htok : cfg.token = ""
  · have hapi : hasGitHubPagesAPI cfg env net repo.name = false := by
      simp [hasGitHubPagesAPI, htok]
    cases hurl : testPagesURL cfg net repo.name <;> cases hlik : likelyHasPages repo <;>
      simp [resolvePages, htok, hapi, hurl, hlik]
  · cases hapi : hasGitHubPagesAPI cfg env net repo.name <;>
      cases hurl : testPagesURL cfg net repo.name <;> cases hlik : likelyHasPages repo <;>
        simp [resolvePages, htok, hapi, hurl, hlik]

/-- A repository contributes a record exactly when it passes the filter, some
tier detects Pages, and the record is its formatting. -/
lemma processRepo_fst_eq_some_iff (cfg : Config) (env : JsEnv) (net : Network)
    (repo : Repo) (p : Project) :
    (processRepo cfg env net repo).1 = some p ↔
      passesFilter cfg repo = true ∧ (resolvePages cfg env net repo).hasPages = true ∧
        p = formatProjectData cfg repo := by
  unfold processRepo
  by_cases hf : passesFilter cfg repo
  · by_cases hp : (resolvePages cfg env net repo).hasPages <;> simp [hf, hp, eq_comm]
  · simp [hf]

/-- The names of the collected records form a sublist of the names of the
fetched repositories (the loop emits at most one record per repository, in
order, and formatting preserves the name). -/
lemma collectProjects_names_sublist (cfg : Config) (env : JsEnv) (net : Network)
    (repos : List Repo) :
    ((collectProjects cfg env net repos).map Project.name).Sublist (repos.map Repo.name) := by
  induction repos with
  | nil => simp [collectProjects]
  | cons repo rest ih =>
    unfold collectProjects at ih ⊢
    rw [List.filterMap_cons]
    cases h : (processRepo cfg env net repo).1 with
    | none => exact List.Sublist.cons _ (by simpa using ih)
    | some p =>
      have hname : p.name = repo.name := by
        have := (processRepo_fst_eq_some_iff cfg env net repo p).mp h
        rw [this.2.2]
        rfl
      simpa [hname] using List.Sublist.cons₂ repo.name (by simpa using ih)

/-- The comparator relation is transitive. -/
lemma projLE_trans (dv : String → Int) (a b c : Project) :
    projLE dv a b → projLE dv b c → projLE dv a c := by
  intro hab hbc
  simp only [projLE] at hab hbc ⊢
  by_cases h1 : a.stars = b.stars <;> by_cases h2 : b.stars = c.stars <;>
    by_cases h3 : a.stars = c.stars <;> simp_all <;> omega

/-- The comparator relation is total. -/
lemma projLE_total (dv : String → Int) (a b : Project) :
    projLE dv a b || projLE dv b a := by
  simp only [projLE]
  by_cases h : a.stars = b.stars
  · simp [h]
    omega
  · rw [if_neg h, if_neg (fun hh => h hh.symm)]
    simp
    omega

/-! ## Claims -/

/-- C1, counterexample: the repository `foo.github.io` is matched by the
pattern tier although its name is not the exact value
`{account}.github.io` for the configured account and does not end with any
of the six suffixes — the first source pattern `/\.github\.io$/` accepts
every name ending in `.github.io`, not only that of the configured account. -/
theorem C1_pattern_tier_counterexample :
    likelyHasPages repoFoo = true ∧
    repoFoo.name ≠ defaultConfig.username ++ ".github.io" ∧
    jsEndsWith repoFoo.name "-homepage" = false ∧
    jsEndsWith repoFoo.name "-portfolio" = false ∧
    jsEndsWith repoFoo.name "-website" = false ∧
    jsEndsWith repoFoo.name "-site" = false ∧
    jsEndsWith repoFoo.name "-demo" = false ∧
    jsEndsWith repoFoo.name "-docs" = false := by
  decide

/-- C1 (amended): the pattern tier reports a match if and only if the
repository name ends with `.github.io` (for any account, not only the exact
value `{account}.github.io`) or ends with one of the suffixes `-homepage`,
`-portfolio`, `-website`, `-site`, `-demo`, `-docs` (case-sensitive); any
other name is not matched. -/
theorem C1_pattern_tier (repo : Repo) :
    likelyHasPages repo = true ↔
      (".github.io".data <:+ repo.name.data ∨
       "-homepage".data <:+ repo.name.data ∨
       "-portfolio".data <:+ repo.name.data ∨
       "-website".data <:+ repo.name.data ∨
       "-site".data <:+ repo.name.data ∨
       "-demo".data <:+ repo.name.data ∨
       "-docs".data <:+ repo.name.data) := by
  simp [likelyHasPages, pagesPatterns, jsEndsWith, List.any_cons, List.any_nil,
    Bool.or_eq_true, List.isSuffixOf_iff_suffix, or_assoc]

/-- C2: per repository the tiers run strictly in order: the API tier issues
its single GET only when a credential is configured, the HEAD probe is
skipped entirely when the API tier detects Pages, the pattern tier issues no
network call, so at most 2 network calls happen; and no tier failure
escapes: every API-tier rejection and every probe error or timeout degrades
to a negative result for that tier. -/
theorem C2_resolver_order_and_budget (cfg : Config) (env : JsEnv) (net : Network)
    (repo : Repo) :
    (resolvePages cfg env net repo).calls ≤ 2 ∧
    (resolvePages cfg env net repo).calls =
      (if cfg.token = "" then 0 else 1) +
        (if hasGitHubPagesAPI cfg env net repo.name then 0 else 1) ∧
    (resolvePages cfg env net repo).hasPages =
      (hasGitHubPagesAPI cfg env net repo.name || testPagesURL cfg net repo.name ||
        likelyHasPages repo) ∧
    (hasGitHubPagesAPI cfg env net repo.name = true →
      resolvePages cfg env net repo =
        { hasPages := true, detectionMethod := "API", calls := 1 }) ∧
    (∀ e, httpsGet env.parsePages (net.wire (pagesApiUrl cfg repo.name)) = Except.error e →
      hasGitHubPagesAPI cfg env net repo.name = false) ∧
    (net.probe (pagesUrl cfg repo.name) = ProbeOutcome.netError ∨
        net.probe (pagesUrl cfg repo.name) = ProbeOutcome.timeout →
      testPagesURL cfg net repo.name = false) := by
  refine ⟨?_, ?_, ?_, ?_, ?_, ?_⟩
  · rw [resolvePages_eq]
    by_cases htok : cfg.token = "" <;>
      by_cases hapi : hasGitHubPagesAPI cfg env net repo.name <;> simp [htok, hapi]
  · rw [resolvePages_eq]
  · rw [resolvePages_eq]
  · intro hapi
    have htok := hasGitHubPagesAPI_token_ne cfg env net repo.name hapi
    rw [resolvePages_eq]
    simp [hapi, htok]
  · intro e he
    by_cases htok : cfg.token = "" <;> simp [hasGitHubPagesAPI, htok, he]
  · intro hp
    rcases hp with hp | hp <;> simp [testPagesURL, hp]

/-- C2, witness: with a configured token, a failing Pages-config GET and a
timing-out probe, both tiers degrade to `false` and the call budget holds. -/
theorem C2_resolver_witness :
    hasGitHubPagesAPI tokenConfig failingEnv deadNetwork repoDocs.name = false ∧
    testPagesURL tokenConfig deadNetwork repoDocs.name = false ∧
    (resolvePages tokenConfig failingEnv deadNetwork repoDocs).calls ≤ 2 := by
  have h := C2_resolver_order_and_budget tokenConfig failingEnv deadNetwork repoDocs
  exact ⟨h.2.2.2.2.1 HttpError.network rfl, h.2.2.2.2.2 (Or.inr rfl), h.1⟩

/-- C3: the direct-probe tier resolves `true` exactly when the HEAD request
to `https://{account}.github.io/{repoName}/` replies with a status in
[200,400); any other status, a network error, or expiry of the bounded
timeout (5000ms) resolves `false`, and the probe is a total boolean — it
never rejects to its caller. -/
theorem C3_direct_probe (cfg : Config) (net : Network) (repoName : String) :
    (testPagesURL cfg net repoName = true ↔
      ∃ code, net.probe (pagesUrl cfg repoName) = ProbeOutcome.status code ∧
        200 ≤ code ∧ code < 400) ∧
    (net.probe (pagesUrl cfg repoName) = ProbeOutcome.netError →
      testPagesURL cfg net repoName = false) ∧
    (net.probe (pagesUrl cfg repoName) = ProbeOutcome.timeout →
      testPagesURL cfg net repoName = false) ∧
    (∀ code, net.probe (pagesUrl cfg repoName) = ProbeOutcome.status code →
      ¬(200 ≤ code ∧ code < 400) → testPagesURL cfg net repoName = false) ∧
    pagesUrl cfg repoName = "https://" ++ cfg.username ++ ".github.io/" ++ repoName ++ "/" ∧
    probeTimeoutMs = 5000 := by
  refine ⟨?_, ?_, ?_, ?_, rfl, rfl⟩
  · unfold testPagesURL
    cases hp : net.probe (pagesUrl cfg repoName) with
    | status code => simp [hp]
    | netError => simp [hp]
    | timeout => simp [hp]
  · intro hp; simp [testPagesURL, hp]
  · intro hp; simp [testPagesURL, hp]
  · intro code hp hbad
    simp only [testPagesURL, hp]
    rcases Nat.lt_or_ge code 200 with h | h
    · simp [Nat.not_le.mpr h]
    · have : ¬ code < 400 := fun hlt => hbad ⟨h, hlt⟩
      simp [this]

/-- C3, witness: a network error and a timeout both resolve `false`; a 200
reply resolves `true`. -/
theorem C3_direct_probe_witness :
    testPagesURL defaultConfig (probeNetwork ProbeOutcome.netError) "x" = false ∧
    testPagesURL defaultConfig (probeNetwork ProbeOutcome.timeout) "x" = false ∧
    testPagesURL defaultConfig (probeNetwork (ProbeOutcome.status 200)) "x" = true :=
  ⟨(C3_direct_probe defaultConfig (probeNetwork ProbeOutcome.netError) "x").2.1 rfl,
   (C3_direct_probe defaultConfig (probeNetwork ProbeOutcome.timeout) "x").2.2.1 rfl,
   (C3_direct_probe defaultConfig (probeNetwork (ProbeOutcome.status 200)) "x").1.mpr
     ⟨200, rfl, by decide, by decide⟩⟩

/-- C4: the filter rejects a record exactly when exclude-forks is on and the
fork flag is set, or exclude-archived is on and the archived flag is set, or
the star count is strictly below the minimum; a rejected record yields no
output record and costs zero network calls (the filter runs before the
resolver), while an accepted record costs exactly what the resolver spends. -/
theorem C4_filter (cfg : Config) (env : JsEnv) (net : Network) (repo : Repo) :
    (passesFilter cfg repo = false ↔
      (cfg.filterForks = true ∧ repo.fork = true) ∨
      (cfg.filterArchived = true ∧ repo.archived = true) ∨
      repo.stargazers_count < cfg.minStars) ∧
    (processRepo cfg env net repo).2 =
      (if passesFilter cfg repo then (resolvePages cfg env net repo).calls else 0) ∧
    (passesFilter cfg repo = false → processRepo cfg env net repo = (none, 0)) := by
  refine ⟨?_, ?_, ?_⟩
  · unfold passesFilter
    cases hff : cfg.filterForks <;> cases hf : repo.fork <;>
      cases hfa : cfg.filterArchived <;> cases ha : repo.archived <;>
        by_cases hs : repo.stargazers_count < cfg.minStars <;> simp [hs]
  · unfold processRepo
    by_cases hf : passesFilter cfg repo <;> simp [hf]
  · intro hf
    simp [processRepo, hf]

/-- C4, witness: with the default configuration a forked repository is
rejected, producing no record and no network call. -/
theorem C4_filter_witness :
    processRepo defaultConfig failingEnv deadNetwork repoFork = (none, 0) :=
  (C4_filter defaultConfig failingEnv deadNetwork repoFork).2.2 (by decide)

/-- C5: assuming the fetched repository names are pairwise distinct (the
account guarantee), every output record arises from a fetched record that
passed the filter and was confirmed by some detection tier, the output
contains no record not derived from a fetched record, no record is emitted
twice (the output names are pairwise distinct), and the originating fetched
record is unique (formatting is injective on the fetched list). -/
theorem C5_output_provenance (cfg : Config) (env : JsEnv) (net : Network)
    (repos : List Repo) (hnd : (repos.map Repo.name).Nodup) :
    (∀ p ∈ sortProjects env.dateValue (collectProjects cfg env net repos),
      ∃ repo ∈ repos, passesFilter cfg repo = true ∧
        (resolvePages cfg env net repo).hasPages = true ∧
        p = formatProjectData cfg repo) ∧
    ((sortProjects env.dateValue (collectProjects cfg env net repos)).map Project.name).Nodup ∧
    (∀ r₁ ∈ repos, ∀ r₂ ∈ repos,
      formatProjectData cfg r₁ = formatProjectData cfg r₂ → r₁ = r₂) := by
  refine ⟨?_, ?_, ?_⟩
  · intro p hp
    rw [sortProjects, List.mem_mergeSort] at hp
    rw [collectProjects, List.mem_filterMap] at hp
    obtain ⟨repo, hmem, hsome⟩ := hp
    obtain ⟨hfil, hdet, hfmt⟩ := (processRepo_fst_eq_some_iff cfg env net repo p).mp hsome
    exact ⟨repo, hmem, hfil, hdet, hfmt⟩
  · have hperm : List.Perm (sortProjects env.dateValue (collectProjects cfg env net repos))
        (collectProjects cfg env net repos) := List.mergeSort_perm _ _
    have hsub := collectProjects_names_sublist cfg env net repos
    have hcol : ((collectProjects cfg env net repos).map Project.name).Nodup :=
      List.Nodup.sublist hsub hnd
    exact ((hperm.map Project.name).nodup_iff).mpr hcol
  · intro r₁ h₁ r₂ h₂ hfmt
    have hn : r₁.name = r₂.name := congrArg Project.name hfmt
    exact List.inj_on_of_nodup_map hnd h₁ h₂ hn

/-- C5, witness: a singleton fetched list with the `-docs` repository (no
credential, dead network, pattern-tier confirmation) yields duplicate-free
output names. -/
theorem C5_output_provenance_witness :
    ((sortProjects failingEnv.dateValue
        (collectProjects defaultConfig failingEnv deadNetwork [repoDocs])).map
      Project.name).Nodup :=
  (C5_output_provenance defaultConfig failingEnv deadNetwork [repoDocs] (by decide)).2.1

/-- C6: in the output, every adjacent pair (A, B) satisfies A.stars > B.stars,
or A.stars = B.stars and the updatedAt of A is no earlier than that of B as
time instants (values of `new Date(...)`, not string comparison). -/
theorem C6_output_sorted (cfg : Config) (env : JsEnv) (net : Network)
    (repos : List Repo) :
    List.Chain'
      (fun a b : Project =>
        b.stars < a.stars ∨
          (a.stars = b.stars ∧ env.dateValue b.updatedAt ≤ env.dateValue a.updatedAt))
      (sortProjects env.dateValue (collectProjects cfg env net repos)) := by
  have hpw := List.sorted_mergeSort (projLE_trans env.dateValue) (projLE_total env.dateValue)
    (collectProjects cfg env net repos)
  rw [sortProjects]
  refine List.Pairwise.chain' (List.Pairwise.imp ?_ hpw)
  intro a b h
  simp only [projLE] at h
  by_cases hs : a.stars = b.stars
  · rw [if_pos hs] at h
    exact Or.inr ⟨hs, by simpa using h⟩
  · rw [if_neg hs] at h
    exact Or.inl (by simpa using h)

/-- C7: the formatter emits the account-root Pages URL exactly when the
repository name contains `{account}.github.io` as a substring, and the
repo-path URL otherwise; in particular a repository named exactly
`{account}.github.io` gets the root URL without a repo-name path segment. -/
theorem C7_pages_url (cfg : Config) (repo : Repo) :
    ((formatProjectData cfg repo).url = "https://" ++ cfg.username ++ ".github.io/" ↔
      (cfg.username ++ ".github.io").data <:+: repo.name.data) ∧
    (formatProjectData cfg repo).url =
      (if jsIncludes repo.name (cfg.username ++ ".github.io") then
        "https://" ++ cfg.username ++ ".github.io/"
      else "https://" ++ cfg.username ++ ".github.io/" ++ repo.name ++ "/") ∧
    (formatProjectData cfg { repo with name := cfg.username ++ ".github.io" }).url =
      "https://" ++ cfg.username ++ ".github.io/" := by
  refine ⟨?_, rfl, ?_⟩
  · have hfmt : (formatProjectData cfg repo).url =
        (if jsIncludes repo.name (cfg.username ++ ".github.io") = true then
          "https://" ++ cfg.username ++ ".github.io/"
        else "https://" ++ cfg.username ++ ".github.io/" ++ repo.name ++ "/") := rfl
    by_cases h : (cfg.username ++ ".github.io").data <:+: repo.name.data
    · have hj : jsIncludes repo.name (cfg.username ++ ".github.io") = true := by
        simpa [jsIncludes] using h
      rw [hfmt, if_pos hj]
      simpa using h
    · have hj : jsIncludes repo.name (cfg.username ++ ".github.io") = false := by
        simpa [jsIncludes] using h
      rw [hfmt, if_neg (by simp [hj])]
      simp only [h, iff_false]
      intro heq
      have hlen := congrArg String.length heq
      simp only [String.length_append] at hlen
      have h1 : ("/" : String).length = 1 := rfl
      have h2 : ("https://" : String).length = 8 := rfl
      have h3 : (".github.io/" : String).length = 11 := rfl
      omega
  · have h : jsIncludes (cfg.username ++ ".github.io") (cfg.username ++ ".github.io") = true := by
      simp [jsIncludes]
    simp [formatProjectData, h]

/-- C8: an absent or empty description is replaced by the placeholder
`"A GitHub project"`, an absent or empty language by `"Various"`, and the
emitted description and language are never empty (and by their type never
null or absent). -/
theorem C8_placeholders (cfg : Config) (repo : Repo) :
    (formatProjectData cfg { repo with description := none }).description =
      "A GitHub project" ∧
    (formatProjectData cfg { repo with description := some "" }).description =
      "A GitHub project" ∧
    (formatProjectData cfg { repo with language := none }).language = "Various" ∧
    (formatProjectData cfg { repo with language := some "" }).language = "Various" ∧
    (formatProjectData cfg repo).description ≠ "" ∧
    (formatProjectData cfg repo).language ≠ "" := by
  refine ⟨rfl, rfl, rfl, rfl, ?_, ?_⟩
  · show jsOrDefault repo.description "A GitHub project" ≠ ""
    cases hd : repo.description with
    | none => decide
    | some s =>
      by_cases hs : s = "" <;> simp [jsOrDefault, hs]
  · show jsOrDefault repo.language "Various" ≠ ""
    cases hd : repo.language with
    | none => decide
    | some s =>
      by_cases hs : s = "" <;> simp [jsOrDefault, hs]

/-- C8, witness: on a concrete record the placeholders are substituted and
the emitted description is non-empty. -/
theorem C8_placeholders_witness :
    (formatProjectData defaultConfig { repoDocs with description := none }).description =
      "A GitHub project" ∧
    (formatProjectData defaultConfig repoDocs).description ≠ "" ∧
    (formatProjectData defaultConfig repoDocs).language ≠ "" := by
  have h := C8_placeholders defaultConfig repoDocs
  exact ⟨h.1, h.2.2.2.2.1, h.2.2.2.2.2⟩

/-- C9, counterexample: a repository whose homepage field holds the empty
string does not keep its input value — `repo.homepage || null` collapses the
empty string to null. -/
theorem C9_passthrough_counterexample :
    repoEmptyHomepage.homepage = some "" ∧
    (formatProjectData defaultConfig repoEmptyHomepage).homepage = none :=
  ⟨rfl, rfl⟩

/-- C9 (amended): the formatter passes name, GitHub URL, star count, fork
count, updatedAt and createdAt through unchanged, defaults topics to the
empty sequence when absent, and passes homepage through except that an
absent or empty-string homepage is emitted as null. -/
theorem C9_passthrough (cfg : Config) (repo : Repo) :
    (formatProjectData cfg repo).name = repo.name ∧
    (formatProjectData cfg repo).github = repo.html_url ∧
    (formatProjectData cfg repo).stars = repo.stargazers_count ∧
    (formatProjectData cfg repo).forks = repo.forks_count ∧
    (formatProjectData cfg repo).updatedAt = repo.updated_at ∧
    (formatProjectData cfg repo).createdAt = repo.created_at ∧
    (formatProjectData cfg repo).topics = repo.topics.getD [] ∧
    (formatProjectData cfg repo).homepage =
      (match repo.homepage with
       | some s => if s = "" then none else some s
       | none => none) :=
  ⟨rfl, rfl, rfl, rfl, rfl, rfl, rfl, rfl⟩

/-- C10: a rejection of the repository-list fetch (non-2xx status, network
error, or malformed JSON body) makes the run fatal — nothing is written and
the exit status is 1; a successful fetch completes the run, writing the full
serialized artifact with exit status 0; an empty fetched list writes exactly
the empty JSON array `[]`. -/
theorem C10_run_outcome (cfg : Config) (env : JsEnv) (net : Network) :
    (∀ e, httpsGet env.parseRepos (net.wire (reposApiUrl cfg)) = Except.error e →
      mainRun cfg env net = RunResult.fatal e ∧
      (mainRun cfg env net).written = none ∧ (mainRun cfg env net).exitCode = 1) ∧
    (∀ repos, httpsGet env.parseRepos (net.wire (reposApiUrl cfg)) = Except.ok repos →
      mainRun cfg env net =
        RunResult.success
          (stringifyProjects (sortProjects env.dateValue (collectProjects cfg env net repos)))
          (sortProjects env.dateValue (collectProjects cfg env net repos)) ∧
      (mainRun cfg env net).exitCode = 0) ∧
    (httpsGet env.parseRepos (net.wire (reposApiUrl cfg)) = Except.ok [] →
      (mainRun cfg env net).written = some "[]" ∧ (mainRun cfg env net).exitCode = 0) ∧
    (net.wire (reposApiUrl cfg) = WireResult.netError →
      mainRun cfg env net = RunResult.fatal HttpError.network) ∧
    (∀ status body, ¬(200 ≤ status ∧ status < 300) →
      net.wire (reposApiUrl cfg) = WireResult.reply status body →
      mainRun cfg env net = RunResult.fatal (HttpError.httpStatus status body)) ∧
    (∀ body, env.parseRepos body = none →
      net.wire (reposApiUrl cfg) = WireResult.reply 200 body →
      mainRun cfg env net = RunResult.fatal (HttpError.parseError body)) := by
  refine ⟨?_, ?_, ?_, ?_, ?_, ?_⟩
  · intro e he
    simp [mainRun, he, RunResult.written, RunResult.exitCode]
  · intro repos hr
    simp [mainRun, hr, RunResult.exitCode]
  · intro hr
    simp [mainRun, hr, sortProjects, collectProjects, stringifyProjects,
      RunResult.written, RunResult.exitCode]
  · intro hw
    simp [mainRun, httpsGet, hw]
  · intro status body hns hw
    simp [mainRun, httpsGet, hw, hns]
  · intro body hpb hw
    simp [mainRun, httpsGet, hw, hpb]

/-- C10, witness: a fetch replying 200 with a body parsing to the empty
repository list writes exactly `[]` and exits with status 0. -/
theorem C10_run_outcome_witness :
    (mainRun defaultConfig emptyListEnv emptyListNetwork).written = some "[]" ∧
    (mainRun defaultConfig emptyListEnv emptyListNetwork).exitCode = 0 :=
  (C10_run_outcome defaultConfig emptyListEnv emptyListNetwork).2.2.1 rfl

end Snapshot
